import Mathlib

/-!
Shallow embedding of the sqlx-migrate core (src/common/src/lib.rs).

The database is modelled as an explicit state: whether the ledger table
exists, the list of ledger rows in insertion order, and the list of
committed script statements in execution order (the observable side
effects of the scripts).  Statement success is an oracle
`ok : String → Bool` abstracting the database's reaction to each
statement; a transaction commits its candidate state only if every step
in it succeeded, otherwise the external state is unchanged (rollback).
Versions are `i64`, modelled as `Int`; checksum, name and sql are
strings.
-/

namespace SqlxMigrate

/-- Rust struct `Migration` (src/common/src/lib.rs): checksum, name, sql, version. -/
structure Migration where
  checksum : String
  name : String
  sql : String
  version : Int
deriving Repr, DecidableEq

/-- Rust struct `AppliedMigration`: the (checksum, version) projection read back
from the ledger by `get_applied_migrations`. -/
structure AppliedMigration where
  checksum : String
  version : Int
deriving Repr, DecidableEq

/-- One persisted row of the `migrations` ledger table: version (primary key),
name, checksum.  The created-at timestamp is defaulted by the database and
never read back, so it is omitted from the model. -/
structure LedgerRow where
  version : Int
  name : String
  checksum : String
deriving Repr, DecidableEq

/-- The database state visible to the migrator: the ledger table flag, the
ledger rows in insertion order, and the committed script statements in
execution order. -/
structure DB where
  tableExists : Bool
  ledger : List LedgerRow
  effects : List String
deriving Repr, DecidableEq

/-- A fresh database: no ledger table, no rows, no side effects. -/
def freshDB : DB := { tableExists := false, ledger := [], effects := [] }

/-- Database-level errors surfaced by sqlx during an apply: a script statement
rejected by the database, or a primary-key conflict on the ledger insert. -/
inductive SqlxError where
  | statementFailed (stmt : String)
  | duplicateKey (version : Int)
deriving Repr, DecidableEq

/-- Rust enum `MigrationError` (src/common/src/lib.rs). -/
inductive MigrationError where
  | FilenameError
  | ChecksumError
  | SQLXError (e : SqlxError)
  | ParseIntError
  | IOError
deriving Repr, DecidableEq

/-- Rust struct `Migrator`: owns the migration list. -/
structure Migrator where
  migrations : List Migration

/-- Rust `Migrator::new`: stores the list exactly as given. -/
def Migrator.new (migrations : List Migration) : Migrator := ⟨migrations⟩

/-- Auxiliary for `rustSplit`: accumulates the current segment (reversed) and
emits it at each separator and at the end of input. -/
def splitCharAux (sep : Char) : List Char → List Char → List (List Char)
  | [], acc => [acc.reverse]
  | c :: cs, acc =>
    if c = sep then acc.reverse :: splitCharAux sep cs []
    else splitCharAux sep cs (c :: acc)

/-- Rust `str::split(sep)`: splits on every occurrence of the separator,
keeping empty segments; the empty string yields one empty segment. -/
def rustSplit (sep : Char) (s : String) : List String :=
  (splitCharAux sep s.data []).map (fun l => ⟨l⟩)

/-- Rust `str::trim`: drops whitespace from both ends. -/
def trimChars (l : List Char) : List Char :=
  ((l.dropWhile Char.isWhitespace).reverse.dropWhile Char.isWhitespace).reverse

/-- Rust `stmt.trim().is_empty()`: the statement is blank (empty or
whitespace-only). -/
def isBlank (s : String) : Bool := (trimChars s.data).isEmpty

/-- The ledger row inserted by `apply_migration` for a migration. -/
def toLedgerRow (m : Migration) : LedgerRow :=
  { version := m.version, name := m.name, checksum := m.checksum }

/-- The statements of a script that actually get executed: the split segments
whose trimmed form is non-empty, in segment order. -/
def executedStmts (m : Migration) : List String :=
  (rustSplit ';' m.sql).filter (fun s => !(isBlank s))

/-- Rust `Migrator::ensure_table`: CREATE TABLE IF NOT EXISTS migrations —
idempotent creation of the ledger table; a no-op when it already exists. -/
def ensure_table (db : DB) : DB := { db with tableExists := true }

/-- Rust `Migrator::get_applied_migrations`: SELECT version, checksum FROM
migrations ORDER BY version — the whole ledger, projected to
(checksum, version) and sorted ascending by version. -/
def get_applied_migrations (db : DB) : List AppliedMigration :=
  List.insertionSort (fun a b => a.version ≤ b.version)
    (db.ledger.map (fun r => { checksum := r.checksum, version := r.version }))

/-- The statement loop of `Migrator::apply_migration`: for each split segment,
skip it when blank, otherwise execute it inside the transaction; the first
statement the database rejects aborts the loop with its error.  Returns the
executed statements in order. -/
def runStmts (ok : String → Bool) : List String → Except SqlxError (List String)
  | [] => .ok []
  | stmt :: rest =>
    if isBlank stmt then runStmts ok rest
    else if ok stmt then
      match runStmts ok rest with
      | .ok l => .ok (stmt :: l)
      | .error e => .error e
    else .error (SqlxError.statementFailed stmt)

/-- Rust `Migrator::apply_migration`: begin a transaction, execute the
non-blank split statements in order, insert the ledger row
(version, name, checksum), commit.  On any statement failure or on a
primary-key conflict of the insert the transaction rolls back and the
external database state is unchanged. -/
def apply_migration (ok : String → Bool) (db : DB) (m : Migration) :
    Except SqlxError Unit × DB :=
  match runStmts ok (rustSplit ';' m.sql) with
  | .error e => (.error e, db)
  | .ok executed =>
    if db.ledger.any (fun r => r.version == m.version) then
      (.error (SqlxError.duplicateKey m.version), db)
    else
      (.ok (), { db with
                   ledger := db.ledger ++ [toLedgerRow m],
                   effects := db.effects ++ executed })

/-- The reconciliation loop of `Migrator::migrate`: for each migration in list
order, look its version up in the snapshot `current`; apply it when absent,
skip it when present with equal checksum, abort with `ChecksumError` when
present with a different checksum.  A failed apply aborts with the database
error. -/
def migrateLoop (ok : String → Bool) (current : List AppliedMigration) :
    List Migration → DB → Except MigrationError Unit × DB
  | [], db => (.ok (), db)
  | m :: rest, db =>
    match current.find? (fun a => a.version == m.version) with
    | none =>
      match apply_migration ok db m with
      | (.error e, db') => (.error (MigrationError.SQLXError e), db')
      | (.ok _, db') => migrateLoop ok current rest db'
    | some a =>
      if a.checksum != m.checksum then (.error MigrationError.ChecksumError, db)
      else migrateLoop ok current rest db

/-- Rust `Migrator::migrate`: ensure the ledger table, load the applied
snapshot once, then reconcile the migration list in order against that
snapshot. -/
def Migrator.migrate (self : Migrator) (ok : String → Bool) (db : DB) :
    Except MigrationError Unit × DB :=
  let db1 := ensure_table db
  migrateLoop ok (get_applied_migrations db1) self.migrations db1

/-- The (checksum, version) projection of a migration, as it comes back from
the ledger after the migration has been applied. -/
def toApplied (m : Migration) : AppliedMigration :=
  { checksum := m.checksum, version := m.version }

/-- An oracle under which the database accepts every statement. -/
def allOk : String → Bool := fun _ => true

/-- An oracle under which the database rejects exactly one statement. -/
def failOn (bad : String) : String → Bool := fun s => !(s == bad)

/-- Concrete sample migration: version 1, one CREATE statement. -/
def exM1 : Migration :=
  { checksum := "c1", name := "one", sql := "CREATE TABLE t(x INT);", version := 1 }

/-- Concrete sample migration: version 2, one INSERT statement. -/
def exM2 : Migration :=
  { checksum := "c2", name := "two", sql := "INSERT INTO t VALUES (1);", version := 2 }

/-- Concrete sample migration sharing version 1 with `exM1`. -/
def exDup : Migration :=
  { checksum := "c9", name := "dup", sql := "SELECT 2;", version := 1 }

/-- Concrete sample migration whose script splits into blank segments only. -/
def exBlank : Migration :=
  { checksum := "cb", name := "blank", sql := ";;  ;", version := 7 }

/-! Helper lemmas about the statement loop and a single apply. -/

theorem runStmts_ok_eq {ok : String → Bool} :
    ∀ {stmts : List String} {l : List String}, runStmts ok stmts = .ok l →
      l = stmts.filter (fun s => !(isBlank s))
  | [], l, h => by simpa [runStmts] using h.symm
  | stmt :: rest, l, h => by
    by_cases hb : isBlank stmt
    · have := @runStmts_ok_eq ok rest l
      simp [runStmts, hb] at h ⊢
      exact this h
    · simp [runStmts, hb] at h ⊢
      cases hok : ok stmt with
      | false => simp [hok] at h
      | true =>
        simp [hok] at h
        cases hr : runStmts ok rest with
        | error e => simp [hr] at h
        | ok l2 =>
          simp [hr] at h
          subst h
          rw [runStmts_ok_eq hr]

theorem runStmts_all_ok {ok : String → Bool} :
    ∀ {stmts : List String}, (∀ s ∈ stmts, !(isBlank s) → ok s = true) →
      runStmts ok stmts = .ok (stmts.filter (fun s => !(isBlank s)))
  | [], _ => by simp [runStmts]
  | stmt :: rest, h => by
    have hrest : ∀ s ∈ rest, !(isBlank s) → ok s = true :=
      fun s hs => h s (List.mem_cons_of_mem _ hs)
    by_cases hb : isBlank stmt
    · simp [runStmts, hb, runStmts_all_ok hrest]
    · have hok : ok stmt = true := h stmt (List.mem_cons_self _ _) (by simp [hb])
      simp [runStmts, hb, hok, runStmts_all_ok hrest]

/-- Case analysis for one apply: either the transaction commits, appending
exactly the executed statements and one ledger row, or it rolls back leaving
the database unchanged and surfacing an error. -/
theorem apply_cases (ok : String → Bool) (db : DB) (m : Migration) :
    (apply_migration ok db m =
      (.ok (), { db with
                   ledger := db.ledger ++ [toLedgerRow m],
                   effects := db.effects ++ executedStmts m }))
    ∨ (∃ e, apply_migration ok db m = (.error e, db)) := by
  unfold apply_migration
  cases hr : runStmts ok (rustSplit ';' m.sql) with
  | error e => exact Or.inr ⟨e, rfl⟩
  | ok executed =>
    by_cases hdup : db.ledger.any (fun r => r.version == m.version)
    · exact Or.inr ⟨SqlxError.duplicateKey m.version, by simp [hdup]⟩
    · left
      have : executed = executedStmts m := by
        rw [runStmts_ok_eq hr]; rfl
      simp [hdup, this]

theorem apply_ok_state {ok : String → Bool} {db db2 : DB} {m : Migration}
    (h : apply_migration ok db m = (.ok (), db2)) :
    db2 = { db with
              ledger := db.ledger ++ [toLedgerRow m],
              effects := db.effects ++ executedStmts m } := by
  rcases apply_cases ok db m with hc | ⟨e, hc⟩
  · rw [h] at hc
    exact congrArg Prod.snd hc
  · rw [h] at hc
    exact absurd (congrArg Prod.fst hc) (by simp)

theorem apply_error_state {ok : String → Bool} {db db2 : DB} {m : Migration}
    {e : SqlxError} (h : apply_migration ok db m = (.error e, db2)) :
    db2 = db := by
  rcases apply_cases ok db m with hc | ⟨e2, hc⟩
  · rw [h] at hc
    exact absurd (congrArg Prod.fst hc) (by simp)
  · rw [h] at hc
    exact congrArg Prod.snd hc

/-! Helper lemmas about the reconciliation loop. -/

theorem migrateLoop_mono (ok : String → Bool) (cur : List AppliedMigration) :
    ∀ (migs : List Migration) (db : DB),
      ∃ t u, (migrateLoop ok cur migs db).2.ledger = db.ledger ++ t ∧
             (migrateLoop ok cur migs db).2.effects = db.effects ++ u ∧
             (migrateLoop ok cur migs db).2.tableExists = db.tableExists := by
  intro migs
  induction migs with
  | nil =>
    intro db
    exact ⟨[], [], by simp [migrateLoop], by simp [migrateLoop], rfl⟩
  | cons m rest ih =>
    intro db
    cases hf : cur.find? (fun a => a.version == m.version) with
    | none =>
      cases ha : apply_migration ok db m with
      | mk r db2 =>
        cases r with
        | error e =>
          have hdb : db2 = db := apply_error_state ha
          subst hdb
          exact ⟨[], [], by simp [migrateLoop, hf, ha], by simp [migrateLoop, hf, ha],
                 by simp [migrateLoop, hf, ha]⟩
        | ok u =>
          cases u
          have hdb : db2 = { db with
                               ledger := db.ledger ++ [toLedgerRow m],
                               effects := db.effects ++ executedStmts m } :=
            apply_ok_state ha
          have hstep : migrateLoop ok cur (m :: rest) db = migrateLoop ok cur rest db2 := by
            simp [migrateLoop, hf, ha]
          obtain ⟨t, v, h1, h2, h3⟩ := ih db2
          refine ⟨toLedgerRow m :: t, executedStmts m ++ v, ?_, ?_, ?_⟩
          · rw [hstep, h1, hdb]; simp
          · rw [hstep, h2, hdb]; simp
          · rw [hstep, h3, hdb]
    | some a =>
      by_cases hcs : (a.checksum != m.checksum) = true
      · exact ⟨[], [], by simp [migrateLoop, hf, hcs], by simp [migrateLoop, hf, hcs],
               by simp [migrateLoop, hf, hcs]⟩
      · obtain ⟨t, v, h1, h2, h3⟩ := ih db
        exact ⟨t, v, by simp [migrateLoop, hf, hcs, h1], by simp [migrateLoop, hf, hcs, h2],
               by simp [migrateLoop, hf, hcs, h3]⟩

theorem migrateLoop_empty_ok (ok : String → Bool) :
    ∀ (migs : List Migration) (db db2 : DB),
      migrateLoop ok [] migs db = (.ok (), db2) →
      db2.ledger = db.ledger ++ migs.map toLedgerRow ∧
      db2.effects = db.effects ++ migs.flatMap executedStmts ∧
      db2.tableExists = db.tableExists := by
  intro migs
  induction migs with
  | nil =>
    intro db db2 h
    simp [migrateLoop] at h
    subst h
    simp
  | cons m rest ih =>
    intro db db2 h
    cases ha : apply_migration ok db m with
    | mk r dbm =>
      cases r with
      | error e =>
        simp [migrateLoop, ha] at h
      | ok u =>
        cases u
        have hrec : migrateLoop ok [] rest dbm = (.ok (), db2) := by
          simpa [migrateLoop, ha] using h
        have hdbm : dbm = { db with
                              ledger := db.ledger ++ [toLedgerRow m],
                              effects := db.effects ++ executedStmts m } :=
          apply_ok_state ha
        obtain ⟨h1, h2, h3⟩ := ih dbm db2 hrec
        subst hdbm
        refine ⟨?_, ?_, ?_⟩
        · simp [h1]
        · simp [h2]
        · simpa using h3

theorem migrateLoop_skip_all (ok : String → Bool) (cur : List AppliedMigration) :
    ∀ (migs : List Migration) (db : DB),
      (∀ m ∈ migs, cur.find? (fun a => a.version == m.version) = some (toApplied m)) →
      migrateLoop ok cur migs db = (.ok (), db) := by
  intro migs
  induction migs with
  | nil => intro db _; simp [migrateLoop]
  | cons m rest ih =>
    intro db h
    have hf : cur.find? (fun a => a.version == m.version) = some (toApplied m) :=
      h m (List.mem_cons_self _ _)
    have hrest : ∀ m2 ∈ rest, cur.find? (fun a => a.version == m2.version) = some (toApplied m2) :=
      fun m2 hm2 => h m2 (List.mem_cons_of_mem _ hm2)
    simp [migrateLoop, hf, toApplied, ih db hrest]

theorem migrateLoop_error_decomp (ok : String → Bool) (cur : List AppliedMigration) :
    ∀ (migs : List Migration) (db db1 : DB) (e : MigrationError),
      migrateLoop ok cur migs db = (.error e, db1) →
      ∃ pre m post, migs = pre ++ m :: post ∧
        migrateLoop ok cur pre db = (.ok (), db1) ∧
        ∀ post2, migrateLoop ok cur (m :: post2) db1 = (.error e, db1) := by
  intro migs
  induction migs with
  | nil => intro db db1 e h; simp [migrateLoop] at h
  | cons m rest ih =>
    intro db db1 e h
    cases hf : cur.find? (fun a => a.version == m.version) with
    | none =>
      cases ha : apply_migration ok db m with
      | mk r dbm =>
        cases r with
        | error e0 =>
          have hdb : dbm = db := apply_error_state ha
          subst hdb
          have h2 : MigrationError.SQLXError e0 = e ∧ dbm = db1 := by
            simpa [migrateLoop, hf, ha] using h
          obtain ⟨he, hdb1⟩ := h2
          subst hdb1
          refine ⟨[], m, rest, rfl, by simp [migrateLoop], fun post2 => ?_⟩
          simp [migrateLoop, hf, ha, he]
        | ok u =>
          cases u
          have hrec : migrateLoop ok cur rest dbm = (.error e, db1) := by
            simpa [migrateLoop, hf, ha] using h
          obtain ⟨pre, mf, post, hsplit, hpre, hstep⟩ := ih dbm db1 e hrec
          refine ⟨m :: pre, mf, post, by simp [hsplit], ?_, hstep⟩
          simp [migrateLoop, hf, ha, hpre]
    | some a =>
      by_cases hcs : (a.checksum != m.checksum) = true
      · have h2 : MigrationError.ChecksumError = e ∧ db = db1 := by
          simpa [migrateLoop, hf, hcs] using h
        obtain ⟨he, hdb1⟩ := h2
        subst hdb1
        refine ⟨[], m, rest, rfl, by simp [migrateLoop], fun post2 => ?_⟩
        simp [migrateLoop, hf, hcs, he]
      · have hrec : migrateLoop ok cur rest db = (.error e, db1) := by
          simpa [migrateLoop, hf, hcs] using h
        obtain ⟨pre, mf, post, hsplit, hpre, hstep⟩ := ih db db1 e hrec
        refine ⟨m :: pre, mf, post, by simp [hsplit], ?_, hstep⟩
        simp [migrateLoop, hf, hcs, hpre]

/-! Helper lemmas about version lookups in the sorted snapshot. -/

theorem find?_version_of_perm {l l2 : List AppliedMigration} (hp : l.Perm l2)
    (hnd : (l.map AppliedMigration.version).Nodup) (v : Int) :
    l2.find? (fun a => a.version == v) = l.find? (fun a => a.version == v) := by
  cases hl : l.find? (fun a => a.version == v) with
  | none =>
    rw [List.find?_eq_none] at hl ⊢
    intro x hx
    exact hl x (hp.mem_iff.mpr hx)
  | some a =>
    have hpa := List.find?_some hl
    have hal : a ∈ l := List.mem_of_find?_eq_some hl
    cases hl2 : l2.find? (fun a => a.version == v) with
    | none =>
      rw [List.find?_eq_none] at hl2
      exact absurd hpa (by simpa using hl2 a (hp.mem_iff.mp hal))
    | some b =>
      have hpb := List.find?_some hl2
      have hbl : b ∈ l := hp.mem_iff.mpr (List.mem_of_find?_eq_some hl2)
      have hv : b.version = a.version := by
        have h1 : a.version = v := by simpa using hpa
        have h2 : b.version = v := by simpa using hpb
        rw [h1, h2]
      rw [List.inj_on_of_nodup_map hnd hbl hal hv]

theorem find?_toApplied_self :
    ∀ (migs : List Migration) (m : Migration), m ∈ migs →
      (migs.map Migration.version).Nodup →
      (migs.map toApplied).find? (fun a => a.version == m.version) = some (toApplied m) := by
  intro migs
  induction migs with
  | nil => intro m hm _; simp at hm
  | cons m0 rest ih =>
    intro m hm hnd
    rcases List.mem_cons.mp hm with hm0 | hmr
    · subst hm0
      simp [toApplied]
    · rw [List.map_cons, List.nodup_cons] at hnd
      have hne : (m0.version == m.version) = false := by
        have hin : m.version ∈ rest.map Migration.version :=
          List.mem_map.mpr ⟨m, hmr, rfl⟩
        simp only [beq_eq_false_iff_ne, ne_eq]
        intro he
        exact hnd.1 (he ▸ hin)
      simp [toApplied, hne, ih m hmr hnd.2]

theorem ensure_table_eq_self {db : DB} (h : db.tableExists = true) :
    ensure_table db = db := by
  cases db with
  | mk te l ef =>
    simp only [ensure_table]
    simp at h
    rw [h]

/-! Claim theorems. -/

/-- C1: for every migration processed by the reconciliation loop, exactly one
of three branches is taken against the applied-ledger snapshot: version absent
→ the migration is applied (the run continues from the apply's committed
state, or aborts with the apply's database error); version present with equal
checksum → the migration is skipped with no database write; version present
with a different checksum → the run aborts immediately with `ChecksumError`,
the state unchanged and the remaining migrations never reconciled. -/
theorem migrate_step_trichotomy (ok : String → Bool) (cur : List AppliedMigration)
    (m : Migration) (rest : List Migration) (db : DB) :
    (cur.find? (fun a => a.version == m.version) = none →
      ∀ db2, apply_migration ok db m = (.ok (), db2) →
        migrateLoop ok cur (m :: rest) db = migrateLoop ok cur rest db2) ∧
    (cur.find? (fun a => a.version == m.version) = none →
      ∀ e db2, apply_migration ok db m = (.error e, db2) →
        migrateLoop ok cur (m :: rest) db = (.error (MigrationError.SQLXError e), db)) ∧
    (∀ a, cur.find? (fun a => a.version == m.version) = some a →
      a.checksum = m.checksum →
      migrateLoop ok cur (m :: rest) db = migrateLoop ok cur rest db) ∧
    (∀ a, cur.find? (fun a => a.version == m.version) = some a →
      a.checksum ≠ m.checksum →
      migrateLoop ok cur (m :: rest) db = (.error MigrationError.ChecksumError, db)) := by
  refine ⟨?_, ?_, ?_, ?_⟩
  · intro hf db2 ha
    simp [migrateLoop, hf, ha]
  · intro hf e db2 ha
    have hdb : db2 = db := apply_error_state ha
    subst hdb
    simp [migrateLoop, hf, ha]
  · intro a hf hcs
    have : (a.checksum != m.checksum) = false := by simp [hcs]
    simp [migrateLoop, hf, this]
  · intro a hf hcs
    have : (a.checksum != m.checksum) = true := bne_iff_ne.mpr hcs
    simp [migrateLoop, hf, this]

/-- Witness for C1: the skip branch at a concrete input. -/
theorem migrate_step_trichotomy_witness :
    migrateLoop allOk [toApplied exM1] [exM1] freshDB =
      migrateLoop allOk [toApplied exM1] [] freshDB :=
  (migrate_step_trichotomy allOk [toApplied exM1] exM1 [] freshDB).2.2.1
    (toApplied exM1) (by rfl) rfl

/-- C2: one apply is all-or-nothing: either the transaction commits, and then
the script's side effects and exactly one ledger row (version, name,
checksum) are both appended, or it fails, and then the database is exactly as
before — neither the script's effects nor the ledger row are present. -/
theorem apply_migration_atomic (ok : String → Bool) (db : DB) (m : Migration) :
    apply_migration ok db m =
        (.ok (), { db with
                     ledger := db.ledger ++ [toLedgerRow m],
                     effects := db.effects ++ executedStmts m })
    ∨ ∃ e, apply_migration ok db m = (.error e, db) :=
  apply_cases ok db m

/-- C5: a successful apply executes exactly the segments of the script split
on the literal semicolon whose whitespace-trimmed form is non-empty, in
segment order; blank segments are not executed. -/
theorem apply_migration_split_semantics (ok : String → Bool) (db db2 : DB)
    (m : Migration) (h : apply_migration ok db m = (.ok (), db2)) :
    db2.effects = db.effects ++ (rustSplit ';' m.sql).filter (fun s => !(isBlank s)) := by
  simp [apply_ok_state h, executedStmts]

/-- Witness for C5: the single non-blank statement of `exM1` is executed. -/
theorem apply_migration_split_semantics_witness :
    ({ tableExists := false, ledger := [toLedgerRow exM1],
       effects := ["CREATE TABLE t(x INT)"] } : DB).effects =
      freshDB.effects ++ (rustSplit ';' exM1.sql).filter (fun s => !(isBlank s)) :=
  apply_migration_split_semantics allOk freshDB
    { tableExists := false, ledger := [toLedgerRow exM1],
      effects := ["CREATE TABLE t(x INT)"] } exM1 rfl

/-- C6: the core never sorts: `Migrator.new` stores the list exactly as
given; from an empty snapshot a successful run appends ledger rows in the
given list order; and concretely a list given in descending version order is
applied and recorded in that order, not re-sorted. -/
theorem migrator_preserves_order :
    (∀ migs : List Migration, (Migrator.new migs).migrations = migs) ∧
    (∀ (ok : String → Bool) (migs : List Migration) (db db2 : DB),
      migrateLoop ok [] migs db = (.ok (), db2) →
      db2.ledger = db.ledger ++ migs.map toLedgerRow) ∧
    ((Migrator.new [exM2, exM1]).migrate allOk freshDB =
      (.ok (), { tableExists := true,
                 ledger := [toLedgerRow exM2, toLedgerRow exM1],
                 effects := ["INSERT INTO t VALUES (1)", "CREATE TABLE t(x INT)"] })) :=
  ⟨fun _ => rfl,
   fun ok migs db db2 h => (migrateLoop_empty_ok ok migs db db2 h).1,
   rfl⟩

/-- Witness for C6: the order statement at a concrete unsorted input. -/
theorem migrator_preserves_order_witness :
    ({ tableExists := true, ledger := [toLedgerRow exM2, toLedgerRow exM1],
       effects := ["INSERT INTO t VALUES (1)", "CREATE TABLE t(x INT)"] } : DB).ledger =
      (ensure_table freshDB).ledger ++ [exM2, exM1].map toLedgerRow :=
  migrator_preserves_order.2.1 allOk [exM2, exM1] (ensure_table freshDB)
    { tableExists := true, ledger := [toLedgerRow exM2, toLedgerRow exM1],
      effects := ["INSERT INTO t VALUES (1)", "CREATE TABLE t(x INT)"] } rfl

/-- C7: the empty migration list against a fresh database creates the ledger
table, applies nothing, writes no ledger rows and succeeds; and the table
creation is idempotent — a no-op when the table already exists. -/
theorem migrate_empty_list (ok : String → Bool) :
    (Migrator.new []).migrate ok freshDB =
      (.ok (), { tableExists := true, ledger := [], effects := [] }) ∧
    (∀ db : DB, ensure_table (ensure_table db) = ensure_table db ∧
      (ensure_table db).tableExists = true ∧
      (ensure_table db).ledger = db.ledger ∧
      (ensure_table db).effects = db.effects) :=
  ⟨rfl, fun _ => ⟨rfl, rfl, rfl, rfl⟩⟩

/-- C8: the ledger is append-only: a whole run only ever appends to the
ledger; ensuring the table writes no rows; and a single apply either commits
exactly one new row together with the script's effects or leaves the
database unchanged.  Rows are never updated or deleted. -/
theorem ledger_append_only (ok : String → Bool) (mr : Migrator) (db : DB) :
    (∃ t, (mr.migrate ok db).2.ledger = db.ledger ++ t) ∧
    (ensure_table db).ledger = db.ledger ∧
    (∀ m : Migration,
      apply_migration ok db m =
          (.ok (), { db with
                       ledger := db.ledger ++ [toLedgerRow m],
                       effects := db.effects ++ executedStmts m })
      ∨ (apply_migration ok db m).2.ledger = db.ledger) := by
  refine ⟨?_, rfl, ?_⟩
  · obtain ⟨t, u, h1, _, _⟩ := migrateLoop_mono ok
      (get_applied_migrations (ensure_table db)) mr.migrations (ensure_table db)
    exact ⟨t, h1⟩
  · intro m
    rcases apply_cases ok db m with h | ⟨e, h⟩
    · exact Or.inl h
    · exact Or.inr (by rw [h])

/-- C4: a failed run decomposes as: a prefix of the list was reconciled
successfully ending in state `db1`, the failing migration's step from `db1`
returns the run's error with the state unchanged (its effects rolled back)
no matter what migrations follow it in the list, and the ledger of `db1`
still extends the initial ledger — previously committed migrations remain
applied and nothing after the failing migration is ever attempted. -/
theorem migrate_failure_semantics (ok : String → Bool) (mr : Migrator) (db db1 : DB)
    (e : MigrationError) (h : mr.migrate ok db = (.error e, db1)) :
    ∃ pre m post,
      mr.migrations = pre ++ m :: post ∧
      migrateLoop ok (get_applied_migrations (ensure_table db)) pre (ensure_table db) =
        (.ok (), db1) ∧
      (∀ post2, migrateLoop ok (get_applied_migrations (ensure_table db)) (m :: post2) db1 =
        (.error e, db1)) ∧
      (∃ t, db1.ledger = db.ledger ++ t) := by
  have h2 : migrateLoop ok (get_applied_migrations (ensure_table db)) mr.migrations
      (ensure_table db) = (.error e, db1) := h
  obtain ⟨pre, m, post, hsplit, hpre, hstep⟩ :=
    migrateLoop_error_decomp ok _ mr.migrations (ensure_table db) db1 e h2
  refine ⟨pre, m, post, hsplit, hpre, hstep, ?_⟩
  obtain ⟨t, u, h1, _, _⟩ := migrateLoop_mono ok
    (get_applied_migrations (ensure_table db)) mr.migrations (ensure_table db)
  refine ⟨t, ?_⟩
  have hdb1 : (migrateLoop ok (get_applied_migrations (ensure_table db)) mr.migrations
      (ensure_table db)).2 = db1 := by rw [h2]
  rw [← hdb1]
  exact h1

/-- Witness for C4: a run failing on its only migration's only statement. -/
theorem migrate_failure_semantics_witness :
    ∃ pre m post,
      (Migrator.new [exM1]).migrations = pre ++ m :: post ∧
      migrateLoop (failOn "CREATE TABLE t(x INT)")
        (get_applied_migrations (ensure_table freshDB)) pre (ensure_table freshDB) =
        (.ok (), { tableExists := true, ledger := [], effects := [] }) ∧
      (∀ post2, migrateLoop (failOn "CREATE TABLE t(x INT)")
          (get_applied_migrations (ensure_table freshDB)) (m :: post2)
          { tableExists := true, ledger := [], effects := [] } =
        (.error (MigrationError.SQLXError (SqlxError.statementFailed "CREATE TABLE t(x INT)")),
         { tableExists := true, ledger := [], effects := [] })) ∧
      (∃ t, ({ tableExists := true, ledger := [], effects := [] } : DB).ledger =
        freshDB.ledger ++ t) :=
  migrate_failure_semantics (failOn "CREATE TABLE t(x INT)") (Migrator.new [exM1])
    freshDB { tableExists := true, ledger := [], effects := [] }
    (MigrationError.SQLXError (SqlxError.statementFailed "CREATE TABLE t(x INT)")) rfl

/-- C3: for a migration list with unique versions, a first successful run
against a fresh database applies every migration — the ledger afterwards is
exactly one row per migration, in list order — and a second run against the
resulting database is a no-op: every migration hits the checksum-equal skip
branch and the call returns success with the state unchanged. -/
theorem migrate_idempotent (ok : String → Bool) (migs : List Migration) (db1 : DB)
    (hnd : (migs.map Migration.version).Nodup)
    (h : (Migrator.new migs).migrate ok freshDB = (.ok (), db1)) :
    db1.ledger = migs.map toLedgerRow ∧
    (Migrator.new migs).migrate ok db1 = (.ok (), db1) := by
  have h2 : migrateLoop ok [] migs (ensure_table freshDB) = (.ok (), db1) := h
  obtain ⟨hledger, heffects, htab⟩ :=
    migrateLoop_empty_ok ok migs (ensure_table freshDB) db1 h2
  have hl : db1.ledger = migs.map toLedgerRow := by simpa using hledger
  have ht : db1.tableExists = true := by simpa using htab
  refine ⟨hl, ?_⟩
  have hens : ensure_table db1 = db1 := ensure_table_eq_self ht
  show migrateLoop ok (get_applied_migrations (ensure_table db1)) migs
      (ensure_table db1) = (.ok (), db1)
  rw [hens]
  have hmapmap : db1.ledger.map
      (fun r => ({ checksum := r.checksum, version := r.version } : AppliedMigration)) =
      migs.map toApplied := by
    rw [hl, List.map_map]
    rfl
  have hcur : get_applied_migrations db1 =
      List.insertionSort (fun a b => a.version ≤ b.version) (migs.map toApplied) := by
    rw [get_applied_migrations, hmapmap]
  have hndA : ((migs.map toApplied).map AppliedMigration.version).Nodup := by
    rw [List.map_map]
    exact hnd
  have hperm : (migs.map toApplied).Perm
      (List.insertionSort (fun a b => a.version ≤ b.version) (migs.map toApplied)) :=
    (List.perm_insertionSort _ _).symm
  have hfind : ∀ m ∈ migs,
      (get_applied_migrations db1).find? (fun a => a.version == m.version) =
        some (toApplied m) := by
    intro m hm
    rw [hcur, find?_version_of_perm hperm hndA m.version,
      find?_toApplied_self migs m hm hnd]
  exact migrateLoop_skip_all ok _ migs db1 hfind

/-- Witness for C3: two concrete migrations applied from a fresh database. -/
theorem migrate_idempotent_witness :
    ([exM1, exM2].map Migration.version).Nodup ∧
    ({ tableExists := true, ledger := [toLedgerRow exM1, toLedgerRow exM2],
       effects := ["CREATE TABLE t(x INT)", "INSERT INTO t VALUES (1)"] } : DB).ledger =
      [exM1, exM2].map toLedgerRow ∧
    (Migrator.new [exM1, exM2]).migrate allOk
        { tableExists := true, ledger := [toLedgerRow exM1, toLedgerRow exM2],
          effects := ["CREATE TABLE t(x INT)", "INSERT INTO t VALUES (1)"] } =
      (.ok (), { tableExists := true, ledger := [toLedgerRow exM1, toLedgerRow exM2],
                 effects := ["CREATE TABLE t(x INT)", "INSERT INTO t VALUES (1)"] }) :=
  ⟨by decide,
   migrate_idempotent allOk [exM1, exM2]
     { tableExists := true, ledger := [toLedgerRow exM1, toLedgerRow exM2],
       effects := ["CREATE TABLE t(x INT)", "INSERT INTO t VALUES (1)"] }
     (by decide) rfl⟩

/-- C9: the applied snapshot is loaded once, before the loop, so when two
migrations of the list share a version and neither is in the ledger, the
first one's committed apply is invisible to the second one's lookup: the
second is treated as pending, its apply is attempted, and its ledger insert
hits a primary-key conflict, aborting the run with the first migration's row
committed. -/
theorem snapshot_loaded_once (ok : String → Bool) (ma mb : Migration)
    (hv : mb.version = ma.version)
    (ha : ∀ s ∈ rustSplit ';' ma.sql, !(isBlank s) → ok s = true)
    (hb : ∀ s ∈ rustSplit ';' mb.sql, !(isBlank s) → ok s = true) :
    (Migrator.new [ma, mb]).migrate ok freshDB =
      (.error (MigrationError.SQLXError (SqlxError.duplicateKey mb.version)),
       { tableExists := true, ledger := [toLedgerRow ma],
         effects := executedStmts ma }) := by
  show migrateLoop ok [] [ma, mb] (ensure_table freshDB) = _
  have hra := runStmts_all_ok ha
  have hrb := runStmts_all_ok hb
  have hap1 : apply_migration ok (ensure_table freshDB) ma =
      (.ok (), { tableExists := true, ledger := [toLedgerRow ma],
                 effects := executedStmts ma }) := by
    simp [apply_migration, hra, ensure_table, freshDB, executedStmts]
  have hdup : [toLedgerRow ma].any (fun r => r.version == mb.version) = true := by
    simp [toLedgerRow, hv]
  have hap2 : apply_migration ok
      { tableExists := true, ledger := [toLedgerRow ma], effects := executedStmts ma } mb =
      (.error (SqlxError.duplicateKey mb.version),
       { tableExists := true, ledger := [toLedgerRow ma], effects := executedStmts ma }) := by
    simp only [apply_migration, hrb]
    simp [hdup]
  simp only [migrateLoop, List.find?_nil, hap1]
  simp only [migrateLoop, List.find?_nil, hap2]

/-- Witness for C9: two concrete migrations sharing version 1. -/
theorem snapshot_loaded_once_witness :
    (Migrator.new [exM1, exDup]).migrate allOk freshDB =
      (.error (MigrationError.SQLXError (SqlxError.duplicateKey exDup.version)),
       { tableExists := true, ledger := [toLedgerRow exM1],
         effects := executedStmts exM1 }) :=
  snapshot_loaded_once allOk exM1 exDup rfl (fun _ _ _ => rfl) (fun _ _ _ => rfl)

/-- C10: a migration whose script splits into blank segments only executes
zero statements but still commits its ledger row: the apply succeeds adding
one row and no effects, a fresh run records it as applied, and a subsequent
run skips it. -/
theorem blank_script_recorded (ok : String → Bool) (m : Migration)
    (hblank : (rustSplit ';' m.sql).filter (fun s => !(isBlank s)) = []) :
    (∀ db : DB, db.ledger.any (fun r => r.version == m.version) = false →
      apply_migration ok db m =
        (.ok (), { db with ledger := db.ledger ++ [toLedgerRow m] })) ∧
    (Migrator.new [m]).migrate ok freshDB =
      (.ok (), { tableExists := true, ledger := [toLedgerRow m], effects := [] }) ∧
    (Migrator.new [m]).migrate ok
        { tableExists := true, ledger := [toLedgerRow m], effects := [] } =
      (.ok (), { tableExists := true, ledger := [toLedgerRow m], effects := [] }) := by
  have hall : ∀ s ∈ rustSplit ';' m.sql, !(isBlank s) → ok s = true := by
    intro s hs hnb
    rw [List.filter_eq_nil_iff] at hblank
    exact absurd hnb (by simpa using hblank s hs)
  have hrun : runStmts ok (rustSplit ';' m.sql) = .ok [] := by
    rw [runStmts_all_ok hall, hblank]
  refine ⟨?_, ?_, ?_⟩
  · intro db hany
    simp [apply_migration, hrun, hany]
  · have hap : apply_migration ok (ensure_table freshDB) m =
        (.ok (), { tableExists := true, ledger := [toLedgerRow m], effects := [] }) := by
      simp [apply_migration, hrun, ensure_table, freshDB]
    show migrateLoop ok [] [m] (ensure_table freshDB) = _
    simp [migrateLoop, hap]
  · have hfind : ∀ m2 ∈ [m],
        (get_applied_migrations
          { tableExists := true, ledger := [toLedgerRow m], effects := [] }).find?
            (fun a => a.version == m2.version) = some (toApplied m2) := by
      intro m2 hm2
      rw [List.mem_singleton] at hm2
      subst hm2
      show ([toApplied m2].find? (fun a => a.version == m2.version)) = some (toApplied m2)
      simp [toApplied]
    exact migrateLoop_skip_all ok _ [m]
      { tableExists := true, ledger := [toLedgerRow m], effects := [] } hfind

/-- Witness for C10: a concrete script of semicolons and whitespace. -/
theorem blank_script_recorded_witness :
    (Migrator.new [exBlank]).migrate allOk freshDB =
      (.ok (), { tableExists := true, ledger := [toLedgerRow exBlank], effects := [] }) ∧
    (Migrator.new [exBlank]).migrate allOk
        { tableExists := true, ledger := [toLedgerRow exBlank], effects := [] } =
      (.ok (), { tableExists := true, ledger := [toLedgerRow exBlank], effects := [] }) :=
  ⟨(blank_script_recorded allOk exBlank (by decide)).2.1,
   (blank_script_recorded allOk exBlank (by decide)).2.2⟩

end SqlxMigrate
